import Mathlib

/-!
Verification of the tree-traversal engine and the operator-definition command
of jarulraj/postgres-cpp.

The repository ships two source files:
  - src/include/nodes/nodeFuncs.h: the QTW_* scope-flag bit definitions and the
    extern declarations of the expression/query traversal entry points
    (expression_tree_walker, expression_tree_mutator, query_tree_walker,
    query_tree_mutator, range_table_walker, ...).  The bodies of these
    functions are not part of the repository snapshot, so the traversal
    engine below is modelled from the specification text (each such
    definition says so in its doc comment).
  - src/backend/commands/operatorcmds.c: DefineOperator, embedded here
    faithfully.  External collaborators (namespace/type/function lookup,
    permission checks, OperatorCreate) are opaque services supplied through
    an environment record; user-facing errors become values of PgError, and
    observable calls (warnings, function-overload lookups, the single
    catalog-mutating OperatorCreate call) are logged as an event trace.
-/

/-! ## Expression node model

Modelled from the spec: the Node data model of section 3 — leaf expression
forms (column reference, literal constant, parameter placeholder) and
composite forms owning either a single child slot (a relabel/coercion node)
or an ordered sequence of children (operator call, function call, boolean
combination).  An ordinary custom list type keeps the recursion structural. -/

mutual
inductive Expr where
  | varE (varno : Nat) (varattno : Nat)
  | constE (v : Int)
  | paramE (paramid : Nat)
  | relabelType (arg : Expr) (resulttype : Nat)
  | opExpr (opno : Nat) (args : ExprList)
  | funcExpr (funcid : Nat) (args : ExprList)
  | boolExpr (boolop : Nat) (args : ExprList)
deriving DecidableEq
inductive ExprList where
  | nil
  | cons (head : Expr) (tail : ExprList)
deriving DecidableEq
end

/-! Modelled from the spec: expression_tree_walker (declared in nodeFuncs.h,
body absent from the snapshot).  Per section 4.1 the callback is invoked
first and child slots are combined with short-circuiting logical OR; the
caller-supplied context is folded into the callback closure. -/
mutual
def expression_tree_walker (w : Expr → Bool) : Expr → Bool
  | .varE a b => w (.varE a b)
  | .constE v => w (.constE v)
  | .paramE p => w (.paramE p)
  | .relabelType e t => w (.relabelType e t) || expression_tree_walker w e
  | .opExpr o args => w (.opExpr o args) || exprListWalk w args
  | .funcExpr f args => w (.funcExpr f args) || exprListWalk w args
  | .boolExpr b args => w (.boolExpr b args) || exprListWalk w args
def exprListWalk (w : Expr → Bool) : ExprList → Bool
  | .nil => false
  | .cons e rest => expression_tree_walker w e || exprListWalk w rest
end

/-! Modelled from the spec: the instrumented variant of
expression_tree_walker that additionally records, in order, every node
passed to the callback.  It mirrors expression_tree_walker exactly: on a hit
the traversal stops (later siblings are never visited). -/
mutual
def expression_tree_walker_visits (w : Expr → Bool) : Expr → Bool × List Expr
  | .varE a b => (w (.varE a b), [Expr.varE a b])
  | .constE v => (w (.constE v), [Expr.constE v])
  | .paramE p => (w (.paramE p), [Expr.paramE p])
  | .relabelType e t =>
    if w (.relabelType e t) then (true, [Expr.relabelType e t])
    else
      let r := expression_tree_walker_visits w e
      (r.1, Expr.relabelType e t :: r.2)
  | .opExpr o args =>
    if w (.opExpr o args) then (true, [Expr.opExpr o args])
    else
      let r := exprListWalkVisits w args
      (r.1, Expr.opExpr o args :: r.2)
  | .funcExpr f args =>
    if w (.funcExpr f args) then (true, [Expr.funcExpr f args])
    else
      let r := exprListWalkVisits w args
      (r.1, Expr.funcExpr f args :: r.2)
  | .boolExpr b args =>
    if w (.boolExpr b args) then (true, [Expr.boolExpr b args])
    else
      let r := exprListWalkVisits w args
      (r.1, Expr.boolExpr b args :: r.2)
def exprListWalkVisits (w : Expr → Bool) : ExprList → Bool × List Expr
  | .nil => (false, [])
  | .cons e rest =>
    let r := expression_tree_walker_visits w e
    if r.1 then (true, r.2)
    else
      let r2 := exprListWalkVisits w rest
      (r2.1, r.2 ++ r2.2)
end

/-! Traversal order of the engine: each node before its children, children in
their slot order.  Used to phrase what "positioned after the match" means. -/
mutual
def preorder : Expr → List Expr
  | .varE a b => [.varE a b]
  | .constE v => [.constE v]
  | .paramE p => [.paramE p]
  | .relabelType e t => .relabelType e t :: preorder e
  | .opExpr o args => .opExpr o args :: preorderList args
  | .funcExpr f args => .funcExpr f args :: preorderList args
  | .boolExpr b args => .boolExpr b args :: preorderList args
def preorderList : ExprList → List Expr
  | .nil => []
  | .cons e rest => preorder e ++ preorderList rest
end

/-- Elements of a list up to and including the first one satisfying p, or the
whole list when none does. -/
def takeThrough {α : Type} (p : α → Bool) : List α → List α
  | [] => []
  | a :: as => if p a then [a] else a :: takeThrough p as

/-! Modelled from the spec: expression_tree_mutator (declared in nodeFuncs.h,
body absent from the snapshot).  The callback may intercept any node
(returning some replacement); when it declines (none), the default dispatch
rebuilds a node of the same kind, mutating each child slot in order and
copying non-child scalar fields verbatim. -/
mutual
def expression_tree_mutator (m : Expr → Option Expr) : Expr → Expr
  | .varE a b =>
    match m (.varE a b) with
    | some e => e
    | none => .varE a b
  | .constE v =>
    match m (.constE v) with
    | some e => e
    | none => .constE v
  | .paramE p =>
    match m (.paramE p) with
    | some e => e
    | none => .paramE p
  | .relabelType e ty =>
    match m (.relabelType e ty) with
    | some e2 => e2
    | none => .relabelType (expression_tree_mutator m e) ty
  | .opExpr o args =>
    match m (.opExpr o args) with
    | some e2 => e2
    | none => .opExpr o (exprListMutate m args)
  | .funcExpr f args =>
    match m (.funcExpr f args) with
    | some e2 => e2
    | none => .funcExpr f (exprListMutate m args)
  | .boolExpr b args =>
    match m (.boolExpr b args) with
    | some e2 => e2
    | none => .boolExpr b (exprListMutate m args)
def exprListMutate (m : Expr → Option Expr) : ExprList → ExprList
  | .nil => .nil
  | .cons e rest => .cons (expression_tree_mutator m e) (exprListMutate m rest)
end

/-! The identity-producing callback: it declines every node, so the engine
performs its default copying recursion everywhere. -/
def identityMutator : Expr → Option Expr := fun _ => none

/-! ## Allocation-tagged expression model

Modelled from the spec: to state the freshness invariant of section 3 (a
mutated tree shares no node by mutable reference with the original), every
node carries an identity tag standing for its heap address, and the mutator
threads an allocation counter handing out fresh tags. -/

mutual
inductive TExpr where
  | varE (id : Nat) (varno : Nat) (varattno : Nat)
  | constE (id : Nat) (v : Int)
  | paramE (id : Nat) (paramid : Nat)
  | relabelType (id : Nat) (arg : TExpr) (resulttype : Nat)
  | opExpr (id : Nat) (opno : Nat) (args : TExprList)
  | funcExpr (id : Nat) (funcid : Nat) (args : TExprList)
  | boolExpr (id : Nat) (boolop : Nat) (args : TExprList)
deriving DecidableEq
inductive TExprList where
  | nil
  | cons (head : TExpr) (tail : TExprList)
deriving DecidableEq
end

/-! Identity tags of every node of a tagged tree. -/
mutual
def tids : TExpr → List Nat
  | .varE i _ _ => [i]
  | .constE i _ => [i]
  | .paramE i _ => [i]
  | .relabelType i e _ => i :: tids e
  | .opExpr i _ args => i :: tidsList args
  | .funcExpr i _ args => i :: tidsList args
  | .boolExpr i _ args => i :: tidsList args
def tidsList : TExprList → List Nat
  | .nil => []
  | .cons e rest => tids e ++ tidsList rest
end

/-! Forgetting the identity tags yields the plain structural tree, so
structural equality of mutation input and output is equality after terase. -/
mutual
def terase : TExpr → Expr
  | .varE _ a b => .varE a b
  | .constE _ v => .constE v
  | .paramE _ p => .paramE p
  | .relabelType _ e ty => .relabelType (terase e) ty
  | .opExpr _ o args => .opExpr o (teraseList args)
  | .funcExpr _ f args => .funcExpr f (teraseList args)
  | .boolExpr _ b args => .boolExpr b (teraseList args)
def teraseList : TExprList → ExprList
  | .nil => .nil
  | .cons e rest => .cons (terase e) (teraseList rest)
end

/-! Modelled from the spec: expression_tree_mutator over tagged nodes, with
allocation made explicit.  Default recursion allocates a new node (a fresh
tag from the counter) for every node it copies; an intercepting callback
returns its replacement as-is, exactly as the engine trusts the C callback's
returned pointer. -/
mutual
def expression_tree_mutator_alloc (m : TExpr → Option TExpr) (ctr : Nat)
    (t : TExpr) : TExpr × Nat :=
  match m t with
  | some e => (e, ctr)
  | none =>
    match t with
    | .varE _ a b => (.varE ctr a b, ctr + 1)
    | .constE _ v => (.constE ctr v, ctr + 1)
    | .paramE _ p => (.paramE ctr p, ctr + 1)
    | .relabelType _ e ty =>
      let r := expression_tree_mutator_alloc m ctr e
      (.relabelType r.2 r.1 ty, r.2 + 1)
    | .opExpr _ o args =>
      let r := texprListMutateAlloc m ctr args
      (.opExpr r.2 o r.1, r.2 + 1)
    | .funcExpr _ f args =>
      let r := texprListMutateAlloc m ctr args
      (.funcExpr r.2 f r.1, r.2 + 1)
    | .boolExpr _ b args =>
      let r := texprListMutateAlloc m ctr args
      (.boolExpr r.2 b r.1, r.2 + 1)
def texprListMutateAlloc (m : TExpr → Option TExpr) (ctr : Nat) :
    TExprList → TExprList × Nat
  | .nil => (.nil, ctr)
  | .cons e rest =>
    let r := expression_tree_mutator_alloc m ctr e
    let r2 := texprListMutateAlloc m r.2 rest
    (.cons r.1 r2.1, r2.2)
end

/-! ## Query traversal engine and scope flags

The flag bit values are taken verbatim from src/include/nodes/nodeFuncs.h
lines 20-26. -/

def QTW_IGNORE_RT_SUBQUERIES : Nat := 0x01

def QTW_IGNORE_CTE_SUBQUERIES : Nat := 0x02

def QTW_IGNORE_RC_SUBQUERIES : Nat := 0x03

def QTW_IGNORE_JOINALIASES : Nat := 0x04

def QTW_IGNORE_RANGE_TABLE : Nat := 0x08

def QTW_EXAMINE_RTES : Nat := 0x10

def QTW_DONT_COPY_QUERY : Nat := 0x20

/-! Modelled from the spec: the statement/structural node family of section 3
— a query owns a target list, optional qualification and having expressions,
a CTE list of nested queries and a range table of entries (base relation,
subquery, join with its alias variable list, VALUES rows). -/
mutual
inductive Query where
  | mk (targetList : ExprList) (quals : Option Expr) (havingQual : Option Expr)
       (cteList : CteList) (rtable : RteList)
inductive CteList where
  | nil
  | cons (ctequery : Query) (rest : CteList)
inductive RteList where
  | nil
  | cons (rte : RangeTblEntry) (rest : RteList)
inductive RangeTblEntry where
  | relation (relid : Nat)
  | subquery (subq : Query)
  | joinRte (joinaliasvars : ExprList)
  | valuesRte (valuesLists : ExprList)
end

/-- Decoded form of the QTW flag bitset: one independent Boolean per flag. -/
structure QueryWalkerFlags where
  ignoreRTSubqueries : Bool
  ignoreCTESubqueries : Bool
  ignoreJoinAliases : Bool
  ignoreRangeTable : Bool
  examineRTEs : Bool
  dontCopyQuery : Bool
deriving DecidableEq

/-- Decoding a flag word tests each documented bit, exactly as the C code
tests flags with a bitwise AND against each QTW_* constant. -/
def decodeQTWFlags (flags : Nat) : QueryWalkerFlags where
  ignoreRTSubqueries := flags &&& QTW_IGNORE_RT_SUBQUERIES != 0
  ignoreCTESubqueries := flags &&& QTW_IGNORE_CTE_SUBQUERIES != 0
  ignoreJoinAliases := flags &&& QTW_IGNORE_JOINALIASES != 0
  ignoreRangeTable := flags &&& QTW_IGNORE_RANGE_TABLE != 0
  examineRTEs := flags &&& QTW_EXAMINE_RTES != 0
  dontCopyQuery := flags &&& QTW_DONT_COPY_QUERY != 0

/-- Nodes a query-level walk can hand to the callback: expressions always,
and range-table entries themselves when QTW_EXAMINE_RTES is set. -/
inductive WalkNode where
  | exprNode (e : Expr)
  | rteNode (r : RangeTblEntry)

def optExprWalk (w : WalkNode → Bool) : Option Expr → Bool
  | none => false
  | some e => expression_tree_walker (fun x => w (.exprNode x)) e

/-! Modelled from the spec: query_tree_walker (declared in nodeFuncs.h, body
absent from the snapshot), over the decoded flag record.  Default recursion
visits the target list, qualification, having clause, the CTE list (unless
ignore-CTE-subqueries) and the range table (unless skip-range-table),
combining with short-circuit OR. -/
mutual
def query_tree_walker_opts (w : WalkNode → Bool) (fl : QueryWalkerFlags) :
    Query → Bool
  | .mk tl quals having ctes rts =>
    exprListWalk (fun x => w (.exprNode x)) tl ||
    optExprWalk w quals ||
    optExprWalk w having ||
    cte_list_walker w fl ctes ||
    (if fl.ignoreRangeTable then false else range_table_walker_opts w fl rts)
def cte_list_walker (w : WalkNode → Bool) (fl : QueryWalkerFlags) :
    CteList → Bool
  | .nil => false
  | .cons q rest =>
    (if fl.ignoreCTESubqueries then false else query_tree_walker_opts w fl q) ||
    cte_list_walker w fl rest
def range_table_walker_opts (w : WalkNode → Bool) (fl : QueryWalkerFlags) :
    RteList → Bool
  | .nil => false
  | .cons rte rest => rte_walker w fl rte || range_table_walker_opts w fl rest
def rte_walker (w : WalkNode → Bool) (fl : QueryWalkerFlags) :
    RangeTblEntry → Bool
  | .relation relid =>
    if fl.examineRTEs then w (.rteNode (.relation relid)) else false
  | .subquery subq =>
    (if fl.examineRTEs then w (.rteNode (.subquery subq)) else false) ||
    (if fl.ignoreRTSubqueries then false else query_tree_walker_opts w fl subq)
  | .joinRte jav =>
    (if fl.examineRTEs then w (.rteNode (.joinRte jav)) else false) ||
    (if fl.ignoreJoinAliases then false
     else exprListWalk (fun x => w (.exprNode x)) jav)
  | .valuesRte vl =>
    (if fl.examineRTEs then w (.rteNode (.valuesRte vl)) else false) ||
    exprListWalk (fun x => w (.exprNode x)) vl
end

/-- Modelled from the spec: query_tree_walker taking the raw flag word, as
declared in nodeFuncs.h.  Any Nat is accepted: the word is decoded bit by
bit, so every OR-combination of flags is a well-defined run, never an
error. -/
def query_tree_walker (w : WalkNode → Bool) (flags : Nat) (q : Query) : Bool :=
  query_tree_walker_opts w (decodeQTWFlags flags) q

def optExprMutate (m : Expr → Option Expr) : Option Expr → Option Expr
  | none => none
  | some e => some (expression_tree_mutator m e)

/-! Modelled from the spec: query_tree_mutator over the decoded flag record.
Substructure excluded by a flag is carried over unprocessed.  In this
value-semantics embedding QTW_DONT_COPY_QUERY (copy versus in-place update
of the top node) has no observable effect, so the decoded field is carried
but not consulted. -/
mutual
def query_tree_mutator_opts (m : Expr → Option Expr) (fl : QueryWalkerFlags) :
    Query → Query
  | .mk tl quals having ctes rts =>
    .mk (exprListMutate m tl) (optExprMutate m quals) (optExprMutate m having)
        (cte_list_mutator m fl ctes)
        (if fl.ignoreRangeTable then rts else range_table_mutator_opts m fl rts)
def cte_list_mutator (m : Expr → Option Expr) (fl : QueryWalkerFlags) :
    CteList → CteList
  | .nil => .nil
  | .cons q rest =>
    .cons (if fl.ignoreCTESubqueries then q else query_tree_mutator_opts m fl q)
          (cte_list_mutator m fl rest)
def range_table_mutator_opts (m : Expr → Option Expr) (fl : QueryWalkerFlags) :
    RteList → RteList
  | .nil => .nil
  | .cons rte rest =>
    .cons (rte_mutator m fl rte) (range_table_mutator_opts m fl rest)
def rte_mutator (m : Expr → Option Expr) (fl : QueryWalkerFlags) :
    RangeTblEntry → RangeTblEntry
  | .relation relid => .relation relid
  | .subquery subq =>
    .subquery (if fl.ignoreRTSubqueries then subq
               else query_tree_mutator_opts m fl subq)
  | .joinRte jav =>
    .joinRte (if fl.ignoreJoinAliases then jav else exprListMutate m jav)
  | .valuesRte vl => .valuesRte (exprListMutate m vl)
end

/-- Modelled from the spec: query_tree_mutator taking the raw flag word. -/
def query_tree_mutator (m : Expr → Option Expr) (flags : Nat) (q : Query) :
    Query :=
  query_tree_mutator_opts m (decodeQTWFlags flags) q

/-- An arbitrary OR-combination of the six scope flags, one Boolean choosing
whether each flag participates. -/
def mkQTWCombo (b1 b2 b3 b4 b5 b6 : Bool) : Nat :=
  (if b1 then QTW_IGNORE_RT_SUBQUERIES else 0) |||
  (if b2 then QTW_IGNORE_CTE_SUBQUERIES else 0) |||
  (if b3 then QTW_IGNORE_JOINALIASES else 0) |||
  (if b4 then QTW_IGNORE_RANGE_TABLE else 0) |||
  (if b5 then QTW_EXAMINE_RTES else 0) |||
  (if b6 then QTW_DONT_COPY_QUERY else 0)

/-! ## DefineOperator (src/backend/commands/operatorcmds.c)

Everything below embeds DefineOperator line by line.  Oids are naturals with
0 for InvalidOid; the type Oid constants carry their catalog values. -/

abbrev Oid := Nat

def InvalidOid : Oid := 0

def OIDOID : Oid := 26

def INT2OID : Oid := 21

def INT4OID : Oid := 23

def FLOAT8OID : Oid := 701

def INTERNALOID : Oid := 2281

def OidIsValid (o : Oid) : Bool := o != 0

/-- ASCII case folding of one character, as pg_strcasecmp does. -/
def charLower (c : Char) : Nat :=
  if 65 ≤ c.toNat ∧ c.toNat ≤ 90 then c.toNat + 32 else c.toNat

/-- Case-insensitive string equality: pg_strcasecmp(a, b) == 0. -/
def strcaseeq (a b : String) : Bool :=
  a.data.map charLower == b.data.map charLower

/-- Verdict of an acl check (ACLCHECK_OK / ACLCHECK_NO_PRIV /
ACLCHECK_NOT_OWNER). -/
inductive AclResult where
  | ok
  | noPriv
  | notOwner
deriving DecidableEq

/-- The part of a TypeName DefineOperator inspects: the name and the SETOF
marker tested at operatorcmds.c lines 107 and 115. -/
structure PgTypeName where
  name : String
  setof : Bool
deriving DecidableEq

/-- One list element of the parameters argument.  The external accessors
defGetTypeName, defGetQualifiedName and defGetBoolean are opaque
collaborators, modelled as pre-extracted fields. -/
structure DefElem where
  defname : String
  typeNameArg : PgTypeName
  qualNameArg : List String
  boolArg : Bool
deriving DecidableEq

/-- The distinct user-facing failures DefineOperator can raise via ereport
or aclcheck_error. -/
inductive PgError where
  | aclNamespace (nspOid : Oid)
  | aclType (typeOid : Oid)
  | aclProc (funcname : List String)
  | setofNotAllowed
  | procedureRequired
  | atLeastOneArgRequired
  | funcLookupFailed (funcname : List String) (nargs : Nat)
  | restrictionRettypeNotFloat8 (funcname : List String)
  | joinRettypeNotFloat8 (funcname : List String)
deriving DecidableEq

/-- Outcome of a fallible step: .ok, or .error carrying the ereport that
aborted the command. -/
inductive PgResult (α : Type) where
  | ok (a : α)
  | error (e : PgError)
deriving DecidableEq

/-- Observable calls DefineOperator makes, in program order: the WARNING for
an unrecognized attribute, each LookupFuncName call (with its missing_ok
argument), and the single catalog-mutating OperatorCreate call. -/
inductive Event where
  | warningUnrecognizedAttr (attr : String)
  | lookupFunc (funcname : List String) (nargs : Nat) (argtypes : List Oid)
      (missingOk : Bool)
  | operatorCreate (oprName : String) (oprNamespace : Oid)
      (leftTypeId rightTypeId : Oid) (procedureId : Oid)
      (commutatorName negatorName : List String) (restrictionId joinId : Oid)
      (canMerge canHash : Bool)
deriving DecidableEq

def Event.isOperatorCreate : Event → Bool
  | .operatorCreate .. => true
  | _ => false

def Event.isLookupFunc : Event → Bool
  | .lookupFunc .. => true
  | _ => false

def Event.isWarning : Event → Bool
  | .warningUnrecognizedAttr _ => true
  | _ => false

/-- The opaque external collaborators of DefineOperator, fixed for one call:
QualifiedNameGetCreationNamespace's result (oprName, oprNamespace), the
pg_namespace_aclcheck verdict for ACL_CREATE, typenameTypeId, the
pg_type_aclcheck verdict for ACL_USAGE per type, LookupFuncName (none
standing for its absent-or-ambiguous failure), the pg_proc_aclcheck verdict
for ACL_EXECUTE per function, get_func_rettype, and the ObjectAddress
OperatorCreate returns. -/
structure Env where
  oprName : String
  oprNamespace : Oid
  nsAclCreate : AclResult
  typenameTypeId : PgTypeName → Oid
  typeAclUsage : Oid → AclResult
  lookupFuncName : List String → Nat → List Oid → Option Oid
  procAclExecute : Oid → AclResult
  getFuncRettype : Oid → Oid
  operatorCreateResult : Nat

/-- The locals the parameter loop of DefineOperator accumulates
(operatorcmds.c lines 69-86). -/
structure OpDefState where
  canMerge : Bool
  canHash : Bool
  functionName : List String
  typeName1 : Option PgTypeName
  typeName2 : Option PgTypeName
  commutatorName : List String
  negatorName : List String
  restrictionName : List String
  joinName : List String
deriving DecidableEq

def initOpDefState : OpDefState :=
  ⟨false, false, [], none, none, [], [], [], []⟩

/-- One iteration of the parameter loop (operatorcmds.c lines 100-148): the
pg_strcasecmp chain over the attribute name, with the SETOF rejection for
leftarg/rightarg; sort1/sort2/ltcmp/gtcmp are obsolete spellings of merges.
An unrecognized attribute falls through to the final branch and leaves the
state unchanged (its WARNING is recorded by paramWarnings). -/
def processParam (st : OpDefState) (defel : DefElem) : PgResult OpDefState :=
  if strcaseeq defel.defname "leftarg" then
    if defel.typeNameArg.setof then .error .setofNotAllowed
    else .ok { st with typeName1 := some defel.typeNameArg }
  else if strcaseeq defel.defname "rightarg" then
    if defel.typeNameArg.setof then .error .setofNotAllowed
    else .ok { st with typeName2 := some defel.typeNameArg }
  else if strcaseeq defel.defname "procedure" then
    .ok { st with functionName := defel.qualNameArg }
  else if strcaseeq defel.defname "commutator" then
    .ok { st with commutatorName := defel.qualNameArg }
  else if strcaseeq defel.defname "negator" then
    .ok { st with negatorName := defel.qualNameArg }
  else if strcaseeq defel.defname "restrict" then
    .ok { st with restrictionName := defel.qualNameArg }
  else if strcaseeq defel.defname "join" then
    .ok { st with joinName := defel.qualNameArg }
  else if strcaseeq defel.defname "hashes" then
    .ok { st with canHash := defel.boolArg }
  else if strcaseeq defel.defname "merges" then
    .ok { st with canMerge := defel.boolArg }
  else if strcaseeq defel.defname "sort1" then
    .ok { st with canMerge := true }
  else if strcaseeq defel.defname "sort2" then
    .ok { st with canMerge := true }
  else if strcaseeq defel.defname "ltcmp" then
    .ok { st with canMerge := true }
  else if strcaseeq defel.defname "gtcmp" then
    .ok { st with canMerge := true }
  else .ok st

/-- An attribute name is recognized when it matches one of the thirteen
branches of the loop; the conditions are those of processParam verbatim. -/
def recognizedAttr (s : String) : Bool :=
  strcaseeq s "leftarg" || strcaseeq s "rightarg" || strcaseeq s "procedure" ||
  strcaseeq s "commutator" || strcaseeq s "negator" || strcaseeq s "restrict" ||
  strcaseeq s "join" || strcaseeq s "hashes" || strcaseeq s "merges" ||
  strcaseeq s "sort1" || strcaseeq s "sort2" || strcaseeq s "ltcmp" ||
  strcaseeq s "gtcmp"

/-- The WARNING an iteration emits: exactly one, for the fall-through
unrecognized-attribute branch (operatorcmds.c lines 143-147). -/
def paramWarnings (defel : DefElem) : List Event :=
  if recognizedAttr defel.defname then []
  else [.warningUnrecognizedAttr defel.defname]

/-- The whole parameter loop: left to right, stopping at the first error
(ereport(ERROR) aborts the command), collecting warnings in order. -/
def processParams (st : OpDefState) :
    List DefElem → List Event × PgResult OpDefState
  | [] => ([], .ok st)
  | d :: rest =>
    match processParam st d with
    | .error e => (paramWarnings d, .error e)
    | .ok st2 =>
      let r := processParams st2 rest
      (paramWarnings d ++ r.1, r.2)

/-- typeId1 after the loop: typenameTypeId when leftarg was given, otherwise
InvalidOid (operatorcmds.c lines 74, 159-160). -/
def stTypeId1 (env : Env) (st : OpDefState) : Oid :=
  match st.typeName1 with
  | some t => env.typenameTypeId t
  | none => InvalidOid

/-- typeId2, as stTypeId1 (operatorcmds.c lines 75, 161-162). -/
def stTypeId2 (env : Env) (st : OpDefState) : Oid :=
  match st.typeName2 with
  | some t => env.typenameTypeId t
  | none => InvalidOid

/-- The argument signature for the implementing function lookup
(operatorcmds.c lines 186-201): one argument when only one operand type is
valid, two otherwise. -/
def operandArgTypes (typeId1 typeId2 : Oid) : List Oid :=
  if OidIsValid typeId1 = false then [typeId2]
  else if OidIsValid typeId2 = false then [typeId1]
  else [typeId1, typeId2]

/-- Everything DefineOperator has resolved once the implementing function
checks are done. -/
structure Stage1Out where
  st : OpDefState
  typeId1 : Oid
  typeId2 : Oid
  functionOid : Oid
  rettype : Oid
deriving DecidableEq

/-- EXECUTE check on the implementing function and USAGE check on its return
type (operatorcmds.c lines 209-217). -/
def functionChecks (env : Env) (st : OpDefState) (typeId1 typeId2 : Oid)
    (functionOid : Oid) (evs : List Event) : List Event × PgResult Stage1Out :=
  if env.procAclExecute functionOid ≠ .ok then
    (evs, .error (.aclProc st.functionName))
  else if env.typeAclUsage (env.getFuncRettype functionOid) ≠ .ok then
    (evs, .error (.aclType (env.getFuncRettype functionOid)))
  else (evs, .ok ⟨st, typeId1, typeId2, functionOid, env.getFuncRettype functionOid⟩)

/-- DefineOperator after the parameter loop, through the implementing
function's resolution (operatorcmds.c lines 150-217): the required-argument
checks, operand type conversion and USAGE checks, the LookupFuncName call
with missing_ok false, then functionChecks. -/
def stage1Post (env : Env) (st : OpDefState) : List Event × PgResult Stage1Out :=
  if st.functionName = [] then ([], .error .procedureRequired)
  else
    let typeId1 := stTypeId1 env st
    let typeId2 := stTypeId2 env st
    if OidIsValid typeId1 = false ∧ OidIsValid typeId2 = false then
      ([], .error .atLeastOneArgRequired)
    else if st.typeName1.isSome ∧ env.typeAclUsage typeId1 ≠ .ok then
      ([], .error (.aclType typeId1))
    else if st.typeName2.isSome ∧ env.typeAclUsage typeId2 ≠ .ok then
      ([], .error (.aclType typeId2))
    else
      let args := operandArgTypes typeId1 typeId2
      let evs := [Event.lookupFunc st.functionName args.length args false]
      match env.lookupFuncName st.functionName args.length args with
      | none => (evs, .error (.funcLookupFailed st.functionName args.length))
      | some functionOid => functionChecks env st typeId1 typeId2 functionOid evs

/-- DefineOperator from entry through the implementing-function checks: the
CREATE permission check on the target namespace (operatorcmds.c lines
89-95), the parameter loop, then stage1Post. -/
def defineOperatorStage1 (env : Env) (parameters : List DefElem) :
    List Event × PgResult Stage1Out :=
  if env.nsAclCreate ≠ AclResult.ok then
    ([], .error (.aclNamespace env.oprNamespace))
  else
    match processParams initOpDefState parameters with
    | (evs, .error e) => (evs, .error e)
    | (evs, .ok st) =>
      let r := stage1Post env st
      (evs ++ r.1, r.2)

/-- Restriction estimator signature (operatorcmds.c lines 224-227):
(internal, oid, internal, int4). -/
def restrictionArgTypes : List Oid := [INTERNALOID, OIDOID, INTERNALOID, INT4OID]

/-- Return type check (must be float8) and EXECUTE check for the restriction
estimator (operatorcmds.c lines 231-242). -/
def restrictionRettypeAndAclChecks (env : Env) (restrictionName : List String)
    (restrictionOid : Oid) (evs : List Event) : List Event × PgResult Oid :=
  if env.getFuncRettype restrictionOid ≠ FLOAT8OID then
    (evs, .error (.restrictionRettypeNotFloat8 restrictionName))
  else if env.procAclExecute restrictionOid ≠ .ok then
    (evs, .error (.aclProc restrictionName))
  else (evs, .ok restrictionOid)

/-- Restriction estimator resolution (operatorcmds.c lines 222-245):
InvalidOid when unspecified, otherwise a strict four-argument
LookupFuncName followed by the rettype and acl checks. -/
def defineOperatorRestriction (env : Env) (restrictionName : List String) :
    List Event × PgResult Oid :=
  if restrictionName = [] then ([], .ok InvalidOid)
  else
    let evs := [Event.lookupFunc restrictionName 4 restrictionArgTypes false]
    match env.lookupFuncName restrictionName 4 restrictionArgTypes with
    | none => (evs, .error (.funcLookupFailed restrictionName 4))
    | some restrictionOid =>
      restrictionRettypeAndAclChecks env restrictionName restrictionOid evs

/-- Join estimator signature, preferred five-argument form (operatorcmds.c
lines 252-256): (internal, oid, internal, int2, internal). -/
def joinArgTypes5 : List Oid := [INTERNALOID, OIDOID, INTERNALOID, INT2OID, INTERNALOID]

/-- The old four-argument form still accepted: the first four of the
five-argument signature. -/
def joinArgTypes4 : List Oid := [INTERNALOID, OIDOID, INTERNALOID, INT2OID]

/-- Return type check (must be float8) and EXECUTE check for the join
estimator (operatorcmds.c lines 270-281). -/
def joinRettypeAndAclChecks (env : Env) (joinName : List String) (joinOid : Oid)
    (evs : List Event) : List Event × PgResult Oid :=
  if env.getFuncRettype joinOid ≠ FLOAT8OID then
    (evs, .error (.joinRettypeNotFloat8 joinName))
  else if env.procAclExecute joinOid ≠ .ok then
    (evs, .error (.aclProc joinName))
  else (evs, .ok joinOid)

/-- The overload the three-step lookup of operatorcmds.c lines 263-268
settles on: five-argument form first, then four-argument, then the strict
five-argument call again (which, the environment being one fixed catalog,
fails exactly when the first did). -/
def joinResolve (env : Env) (joinName : List String) : Option Oid :=
  match env.lookupFuncName joinName 5 joinArgTypes5 with
  | some joinOid => some joinOid
  | none =>
    match env.lookupFuncName joinName 4 joinArgTypes4 with
    | some joinOid => some joinOid
    | none => env.lookupFuncName joinName 5 joinArgTypes5

/-- Join estimator resolution (operatorcmds.c lines 250-284): InvalidOid when
unspecified; otherwise try 5 args with missing_ok, then 4 args with
missing_ok, then 5 args strict (so the error message references the
preferred signature), then the rettype and acl checks. -/
def defineOperatorJoin (env : Env) (joinName : List String) :
    List Event × PgResult Oid :=
  if joinName = [] then ([], .ok InvalidOid)
  else
    match env.lookupFuncName joinName 5 joinArgTypes5 with
    | some joinOid =>
      joinRettypeAndAclChecks env joinName joinOid
        [.lookupFunc joinName 5 joinArgTypes5 true]
    | none =>
      match env.lookupFuncName joinName 4 joinArgTypes4 with
      | some joinOid =>
        joinRettypeAndAclChecks env joinName joinOid
          [.lookupFunc joinName 5 joinArgTypes5 true,
           .lookupFunc joinName 4 joinArgTypes4 true]
      | none =>
        match env.lookupFuncName joinName 5 joinArgTypes5 with
        | some joinOid =>
          joinRettypeAndAclChecks env joinName joinOid
            [.lookupFunc joinName 5 joinArgTypes5 true,
             .lookupFunc joinName 4 joinArgTypes4 true,
             .lookupFunc joinName 5 joinArgTypes5 false]
        | none =>
          ([.lookupFunc joinName 5 joinArgTypes5 true,
            .lookupFunc joinName 4 joinArgTypes4 true,
            .lookupFunc joinName 5 joinArgTypes5 false],
           .error (.funcLookupFailed joinName 5))

/-- The estimator lookups followed by the OperatorCreate call
(operatorcmds.c lines 219-301): the only catalog mutation, reached only
after every check has passed. -/
def defineOperatorCreatePhase (env : Env) (s1 : Stage1Out) :
    List Event × PgResult Nat :=
  match defineOperatorRestriction env s1.st.restrictionName with
  | (evs2, .error e) => (evs2, .error e)
  | (evs2, .ok restrictionOid) =>
    match defineOperatorJoin env s1.st.joinName with
    | (evs3, .error e) => (evs2 ++ evs3, .error e)
    | (evs3, .ok joinOid) =>
      (evs2 ++ evs3 ++
        [.operatorCreate env.oprName env.oprNamespace s1.typeId1 s1.typeId2
          s1.functionOid s1.st.commutatorName s1.st.negatorName
          restrictionOid joinOid s1.st.canMerge s1.st.canHash],
       .ok env.operatorCreateResult)

/-- DefineOperator (operatorcmds.c lines 63-301): its event trace and its
result — the ObjectAddress from OperatorCreate, or the first error
raised. -/
def DefineOperator (env : Env) (parameters : List DefElem) :
    List Event × PgResult Nat :=
  match defineOperatorStage1 env parameters with
  | (evs, .error e) => (evs, .error e)
  | (evs, .ok s1) =>
    let r := defineOperatorCreatePhase env s1
    (evs ++ r.1, r.2)

/-! ## Concrete inputs used by the witness theorems -/

/-- An environment whose catalog holds a two-argument function f returning
type 701 and a four-argument function r returning type 26 (not float8), with
every permission granted. -/
def envW : Env where
  oprName := "+"
  oprNamespace := 11
  nsAclCreate := .ok
  typenameTypeId := fun _ => 23
  typeAclUsage := fun _ => .ok
  lookupFuncName := fun n k _ =>
    if n = ["f"] ∧ k = 2 then some 44
    else if n = ["r"] ∧ k = 4 then some 55
    else none
  procAclExecute := fun _ => .ok
  getFuncRettype := fun o => if o = 55 then 26 else 701
  operatorCreateResult := 1

/-- An environment denying CREATE on the target namespace. -/
def envW8 : Env where
  oprName := "+"
  oprNamespace := 11
  nsAclCreate := .noPriv
  typenameTypeId := fun _ => 23
  typeAclUsage := fun _ => .ok
  lookupFuncName := fun _ _ _ => none
  procAclExecute := fun _ => .ok
  getFuncRettype := fun _ => 701
  operatorCreateResult := 1

/-- Parameters naming procedure f, both operand types, and restriction
estimator r (whose return type is not float8 in envW). -/
def psW7 : List DefElem :=
  [⟨"procedure", ⟨"", false⟩, ["f"], false⟩,
   ⟨"leftarg", ⟨"int4", false⟩, [], false⟩,
   ⟨"rightarg", ⟨"int4", false⟩, [], false⟩,
   ⟨"restrict", ⟨"", false⟩, ["r"], false⟩]

/-- The loop state psW7 produces. -/
def stW7 : OpDefState :=
  ⟨false, false, ["f"], some ⟨"int4", false⟩, some ⟨"int4", false⟩, [], [],
   ["r"], []⟩

/-- The stage-one output envW produces on psW7. -/
def s1W7 : Stage1Out := ⟨stW7, 23, 23, 44, 701⟩

/-- A leftarg parameter whose type is declared SETOF. -/
def dW9 : DefElem := ⟨"leftarg", ⟨"int4", true⟩, [], false⟩

/-- A parameter with an attribute name none of the thirteen branches
recognizes. -/
def dW10 : DefElem := ⟨"fancy", ⟨"", false⟩, [], false⟩

/-- A tree whose unique node satisfying wC2 sits between two constants. -/
def tC2 : Expr :=
  .opExpr 1 (.cons (.constE 2) (.cons (.varE 1 1) (.cons (.constE 3) .nil)))

/-- The predicate matching exactly the Var node of tC2. -/
def wC2 : Expr → Bool := fun e => e == Expr.varE 1 1

/-- A small tree for the identity-law witness. -/
def tC3 : Expr :=
  .funcExpr 9 (.cons (.relabelType (.paramE 4) 23) (.cons (.constE 7) .nil))

/-- A tagged two-node tree with identity tags 0 and 1. -/
def tC4 : TExpr := .opExpr 0 7 (.cons (.constE 1 5) .nil)

/-! ## Lemmas about the expression walker -/

theorem takeThrough_of_not_any {α : Type} (p : α → Bool) (l : List α)
    (h : l.any p = false) : takeThrough p l = l := by
  induction l with
  | nil => rfl
  | cons a as ih =>
    simp only [List.any_cons, Bool.or_eq_false_iff] at h
    simp [takeThrough, h.1, ih h.2]

theorem takeThrough_append_left {α : Type} (p : α → Bool) (l1 l2 : List α)
    (h : l1.any p = true) : takeThrough p (l1 ++ l2) = takeThrough p l1 := by
  induction l1 with
  | nil => simp at h
  | cons a as ih =>
    simp only [List.any_cons, Bool.or_eq_true] at h
    by_cases ha : p a = true
    · simp [takeThrough, ha]
    · simp only [Bool.not_eq_true] at ha
      rcases h with h | h
      · rw [ha] at h; exact absurd h (by simp)
      · simp [takeThrough, ha, ih h]

theorem takeThrough_append_right {α : Type} (p : α → Bool) (l1 l2 : List α)
    (h : l1.any p = false) : takeThrough p (l1 ++ l2) = l1 ++ takeThrough p l2 := by
  induction l1 with
  | nil => rfl
  | cons a as ih =>
    simp only [List.any_cons, Bool.or_eq_false_iff] at h
    simp [takeThrough, h.1, ih h.2]

theorem takeThrough_eq_take {α : Type} (p : α → Bool) (l : List α)
    (h : l.any p = true) :
    takeThrough p l = l.take (l.findIdx p + 1) := by
  induction l with
  | nil => simp at h
  | cons a as ih =>
    by_cases ha : p a = true
    · simp [takeThrough, ha, List.findIdx_cons]
    · simp only [Bool.not_eq_true] at ha
      simp only [List.any_cons, ha, Bool.false_or] at h
      simp [takeThrough, ha, List.findIdx_cons, ih h]

mutual
theorem walker_visits_spec (w : Expr → Bool) (t : Expr) :
    expression_tree_walker_visits w t =
      ((preorder t).any w, takeThrough w (preorder t)) := by
  cases t with
  | varE a b => simp [expression_tree_walker_visits, preorder, takeThrough]
  | constE v => simp [expression_tree_walker_visits, preorder, takeThrough]
  | paramE p => simp [expression_tree_walker_visits, preorder, takeThrough]
  | relabelType e ty =>
    have ih := walker_visits_spec w e
    by_cases hw : w (.relabelType e ty) = true
    · simp [expression_tree_walker_visits, preorder, takeThrough, hw]
    · simp only [Bool.not_eq_true] at hw
      simp [expression_tree_walker_visits, preorder, takeThrough, hw, ih]
  | opExpr o args =>
    have ih := walker_visits_list_spec w args
    by_cases hw : w (.opExpr o args) = true
    · simp [expression_tree_walker_visits, preorder, takeThrough, hw]
    · simp only [Bool.not_eq_true] at hw
      simp [expression_tree_walker_visits, preorder, takeThrough, hw, ih]
  | funcExpr f args =>
    have ih := walker_visits_list_spec w args
    by_cases hw : w (.funcExpr f args) = true
    · simp [expression_tree_walker_visits, preorder, takeThrough, hw]
    · simp only [Bool.not_eq_true] at hw
      simp [expression_tree_walker_visits, preorder, takeThrough, hw, ih]
  | boolExpr b args =>
    have ih := walker_visits_list_spec w args
    by_cases hw : w (.boolExpr b args) = true
    · simp [expression_tree_walker_visits, preorder, takeThrough, hw]
    · simp only [Bool.not_eq_true] at hw
      simp [expression_tree_walker_visits, preorder, takeThrough, hw, ih]
theorem walker_visits_list_spec (w : Expr → Bool) (l : ExprList) :
    exprListWalkVisits w l =
      ((preorderList l).any w, takeThrough w (preorderList l)) := by
  cases l with
  | nil => simp [exprListWalkVisits, preorderList, takeThrough]
  | cons e rest =>
    have ih := walker_visits_spec w e
    have ih2 := walker_visits_list_spec w rest
    by_cases hb : (preorder e).any w = true
    · simp [exprListWalkVisits, preorderList, ih, hb, takeThrough_append_left]
    · simp only [Bool.not_eq_true] at hb
      simp [exprListWalkVisits, preorderList, ih, ih2, hb,
        takeThrough_append_right _ _ _ hb, takeThrough_of_not_any _ _ hb]
end

mutual
theorem walker_eq_any (w : Expr → Bool) (t : Expr) :
    expression_tree_walker w t = (preorder t).any w := by
  cases t with
  | varE a b => simp [expression_tree_walker, preorder]
  | constE v => simp [expression_tree_walker, preorder]
  | paramE p => simp [expression_tree_walker, preorder]
  | relabelType e ty =>
    simp [expression_tree_walker, preorder, walker_eq_any w e]
  | opExpr o args => simp [expression_tree_walker, preorder, walker_list_eq_any w args]
  | funcExpr f args => simp [expression_tree_walker, preorder, walker_list_eq_any w args]
  | boolExpr b args => simp [expression_tree_walker, preorder, walker_list_eq_any w args]
theorem walker_list_eq_any (w : Expr → Bool) (l : ExprList) :
    exprListWalk w l = (preorderList l).any w := by
  cases l with
  | nil => simp [exprListWalk, preorderList]
  | cons e rest =>
    simp [exprListWalk, preorderList, walker_eq_any w e, walker_list_eq_any w rest]
end

/-! ## Lemmas about the expression mutator -/

mutual
theorem mutator_id_aux (m : Expr → Option Expr)
    (hm : ∀ e, m e = none ∨ m e = some e) (t : Expr) :
    expression_tree_mutator m t = t := by
  cases t with
  | varE a b =>
    rcases hm (.varE a b) with h | h <;> simp [expression_tree_mutator, h]
  | constE v =>
    rcases hm (.constE v) with h | h <;> simp [expression_tree_mutator, h]
  | paramE p =>
    rcases hm (.paramE p) with h | h <;> simp [expression_tree_mutator, h]
  | relabelType e ty =>
    rcases hm (.relabelType e ty) with h | h <;>
      simp [expression_tree_mutator, h, mutator_id_aux m hm e]
  | opExpr o args =>
    rcases hm (.opExpr o args) with h | h <;>
      simp [expression_tree_mutator, h, list_mutator_id_aux m hm args]
  | funcExpr f args =>
    rcases hm (.funcExpr f args) with h | h <;>
      simp [expression_tree_mutator, h, list_mutator_id_aux m hm args]
  | boolExpr b args =>
    rcases hm (.boolExpr b args) with h | h <;>
      simp [expression_tree_mutator, h, list_mutator_id_aux m hm args]
theorem list_mutator_id_aux (m : Expr → Option Expr)
    (hm : ∀ e, m e = none ∨ m e = some e) (l : ExprList) :
    exprListMutate m l = l := by
  cases l with
  | nil => rfl
  | cons e rest =>
    simp [exprListMutate, mutator_id_aux m hm e, list_mutator_id_aux m hm rest]
end

mutual
theorem alloc_fresh (ctr : Nat) (t : TExpr) :
    terase (expression_tree_mutator_alloc (fun _ => none) ctr t).1 = terase t ∧
    ctr ≤ (expression_tree_mutator_alloc (fun _ => none) ctr t).2 ∧
    ∀ i ∈ tids (expression_tree_mutator_alloc (fun _ => none) ctr t).1,
      ctr ≤ i := by
  cases t with
  | varE j a b => simp [expression_tree_mutator_alloc, terase, tids]
  | constE j v => simp [expression_tree_mutator_alloc, terase, tids]
  | paramE j p => simp [expression_tree_mutator_alloc, terase, tids]
  | relabelType j e ty =>
    have ih := alloc_fresh ctr e
    refine ⟨?_, ?_, ?_⟩
    · simp [expression_tree_mutator_alloc, terase, ih.1]
    · simp only [expression_tree_mutator_alloc]
      omega
    · simp only [expression_tree_mutator_alloc, tids, List.mem_cons]
      rintro i (rfl | hi)
      · exact ih.2.1
      · exact ih.2.2 i hi
  | opExpr j o args =>
    have ih := alloc_list_fresh ctr args
    refine ⟨?_, ?_, ?_⟩
    · simp [expression_tree_mutator_alloc, terase, ih.1]
    · simp only [expression_tree_mutator_alloc]
      omega
    · simp only [expression_tree_mutator_alloc, tids, List.mem_cons]
      rintro i (rfl | hi)
      · exact ih.2.1
      · exact ih.2.2 i hi
  | funcExpr j f args =>
    have ih := alloc_list_fresh ctr args
    refine ⟨?_, ?_, ?_⟩
    · simp [expression_tree_mutator_alloc, terase, ih.1]
    · simp only [expression_tree_mutator_alloc]
      omega
    · simp only [expression_tree_mutator_alloc, tids, List.mem_cons]
      rintro i (rfl | hi)
      · exact ih.2.1
      · exact ih.2.2 i hi
  | boolExpr j b args =>
    have ih := alloc_list_fresh ctr args
    refine ⟨?_, ?_, ?_⟩
    · simp [expression_tree_mutator_alloc, terase, ih.1]
    · simp only [expression_tree_mutator_alloc]
      omega
    · simp only [expression_tree_mutator_alloc, tids, List.mem_cons]
      rintro i (rfl | hi)
      · exact ih.2.1
      · exact ih.2.2 i hi
theorem alloc_list_fresh (ctr : Nat) (l : TExprList) :
    teraseList (texprListMutateAlloc (fun _ => none) ctr l).1 = teraseList l ∧
    ctr ≤ (texprListMutateAlloc (fun _ => none) ctr l).2 ∧
    ∀ i ∈ tidsList (texprListMutateAlloc (fun _ => none) ctr l).1, ctr ≤ i := by
  cases l with
  | nil => simp [texprListMutateAlloc, teraseList, tidsList]
  | cons e rest =>
    have ihe := alloc_fresh ctr e
    have ihr :=
      alloc_list_fresh (expression_tree_mutator_alloc (fun _ => none) ctr e).2 rest
    refine ⟨?_, ?_, ?_⟩
    · simp [texprListMutateAlloc, teraseList, ihe.1, ihr.1]
    · simp only [texprListMutateAlloc]
      have := ihe.2.1
      have := ihr.2.1
      omega
    · simp only [texprListMutateAlloc, tidsList, List.mem_append]
      rintro i (hi | hi)
      · exact ihe.2.2 i hi
      · exact le_trans ihe.2.1 (ihr.2.2 i hi)
end

/-! ## Lemmas about the query scope flags -/

theorem decode_combo (b1 b2 b3 b4 b5 b6 : Bool) :
    decodeQTWFlags (mkQTWCombo b1 b2 b3 b4 b5 b6) =
      QueryWalkerFlags.mk b1 b2 b3 b4 b5 b6 := by
  cases b1 <;> cases b2 <;> cases b3 <;> cases b4 <;> cases b5 <;> cases b6 <;>
    decide

/-! ## Lemmas about DefineOperator -/

theorem paramWarnings_warning (d : DefElem) :
    ∀ ev ∈ paramWarnings d, ev.isWarning = true := by
  unfold paramWarnings
  split <;> simp [Event.isWarning]

theorem processParams_events_warning (st : OpDefState) (ps : List DefElem) :
    ∀ ev ∈ (processParams st ps).1, ev.isWarning = true := by
  induction ps generalizing st with
  | nil => simp [processParams]
  | cons d rest ih =>
    intro ev hev
    simp only [processParams] at hev
    cases hpp : processParam st d with
    | error e =>
      rw [hpp] at hev
      exact paramWarnings_warning d ev hev
    | ok st2 =>
      rw [hpp] at hev
      simp only [List.mem_append] at hev
      rcases hev with hev | hev
      · exact paramWarnings_warning d ev hev
      · exact ih st2 ev hev

theorem processParams_append_ok (st st2 : OpDefState) (xs ys : List DefElem)
    (h : (processParams st xs).2 = .ok st2) :
    (processParams st (xs ++ ys)).1 =
      (processParams st xs).1 ++ (processParams st2 ys).1 ∧
    (processParams st (xs ++ ys)).2 = (processParams st2 ys).2 := by
  induction xs generalizing st with
  | nil =>
    simp only [processParams] at h
    cases h
    simp [processParams]
  | cons d rest ih =>
    cases hpp : processParam st d with
    | error e => simp [processParams, hpp] at h
    | ok stm =>
      simp only [processParams, List.cons_append, hpp] at h ⊢
      obtain ⟨ih1, ih2⟩ := ih stm h
      simp [ih1, ih2]

theorem warning_not_create (ev : Event) (h : ev.isWarning = true) :
    ev.isOperatorCreate = false := by
  cases ev <;> simp_all [Event.isWarning, Event.isOperatorCreate]

theorem warning_not_lookup (ev : Event) (h : ev.isWarning = true) :
    ev.isLookupFunc = false := by
  cases ev <;> simp_all [Event.isWarning, Event.isLookupFunc]

theorem lookup_not_create (ev : Event) (h : ev.isLookupFunc = true) :
    ev.isOperatorCreate = false := by
  cases ev <;> simp_all [Event.isLookupFunc, Event.isOperatorCreate]

theorem functionChecks_fst (env : Env) (st : OpDefState) (typeId1 typeId2 : Oid)
    (functionOid : Oid) (evs : List Event) :
    (functionChecks env st typeId1 typeId2 functionOid evs).1 = evs := by
  unfold functionChecks
  split_ifs <;> rfl

theorem joinChecks_fst (env : Env) (joinName : List String) (joinOid : Oid)
    (evs : List Event) :
    (joinRettypeAndAclChecks env joinName joinOid evs).1 = evs := by
  unfold joinRettypeAndAclChecks
  split_ifs <;> rfl

theorem restrictionChecks_fst (env : Env) (rn : List String) (roid : Oid)
    (evs : List Event) :
    (restrictionRettypeAndAclChecks env rn roid evs).1 = evs := by
  unfold restrictionRettypeAndAclChecks
  split_ifs <;> rfl

theorem stage1Post_events (env : Env) (st : OpDefState) :
    ∀ ev ∈ (stage1Post env st).1, ev.isLookupFunc = true := by
  unfold stage1Post
  dsimp only
  split
  · simp
  · split
    · simp
    · split
      · simp
      · split
        · simp
        · split
          · simp [Event.isLookupFunc]
          · rw [functionChecks_fst]
            simp [Event.isLookupFunc]

theorem stage1_events (env : Env) (ps : List DefElem) :
    ∀ ev ∈ (defineOperatorStage1 env ps).1,
      ev.isWarning = true ∨ ev.isLookupFunc = true := by
  unfold defineOperatorStage1
  split_ifs
  · simp
  · rcases hpp : processParams initOpDefState ps with ⟨evs, r⟩
    cases r with
    | error e =>
      intro ev hev
      exact Or.inl (processParams_events_warning initOpDefState ps ev
        (by rw [hpp]; exact hev))
    | ok st =>
      intro ev hev
      simp only [List.mem_append] at hev
      rcases hev with hev | hev
      · exact Or.inl (processParams_events_warning initOpDefState ps ev
          (by rw [hpp]; exact hev))
      · exact Or.inr (stage1Post_events env st ev hev)

theorem restriction_events (env : Env) (rn : List String) :
    ∀ ev ∈ (defineOperatorRestriction env rn).1, ev.isLookupFunc = true := by
  unfold defineOperatorRestriction
  split_ifs
  · simp
  · split
    · simp [Event.isLookupFunc]
    · rw [restrictionChecks_fst]
      simp [Event.isLookupFunc]

theorem join_events (env : Env) (jn : List String) :
    ∀ ev ∈ (defineOperatorJoin env jn).1, ev.isLookupFunc = true := by
  unfold defineOperatorJoin
  split
  · simp
  · split
    · rw [joinChecks_fst]
      simp [Event.isLookupFunc]
    · split
      · rw [joinChecks_fst]
        simp [Event.isLookupFunc]
      · split
        · rw [joinChecks_fst]
          simp [Event.isLookupFunc]
        · simp [Event.isLookupFunc]

theorem DefineOperator_snd (env : Env) (ps : List DefElem) :
    (DefineOperator env ps).2 =
      match (defineOperatorStage1 env ps).2 with
      | .error e => .error e
      | .ok s1 => (defineOperatorCreatePhase env s1).2 := by
  unfold DefineOperator
  rcases hs : defineOperatorStage1 env ps with ⟨evs, r⟩
  cases r <;> simp

theorem stage1_snd (env : Env) (ps : List DefElem) :
    (defineOperatorStage1 env ps).2 =
      if env.nsAclCreate ≠ AclResult.ok then .error (.aclNamespace env.oprNamespace)
      else
        match (processParams initOpDefState ps).2 with
        | .error e => .error e
        | .ok st => (stage1Post env st).2 := by
  unfold defineOperatorStage1
  split_ifs with h
  · rfl
  · rcases hp : processParams initOpDefState ps with ⟨evs, r⟩
    cases r <;> simp

theorem createPhase_snd (env : Env) (s1 : Stage1Out) :
    (defineOperatorCreatePhase env s1).2 =
      match (defineOperatorRestriction env s1.st.restrictionName).2 with
      | .error e => .error e
      | .ok _ =>
        match (defineOperatorJoin env s1.st.joinName).2 with
        | .error e => .error e
        | .ok _ => .ok env.operatorCreateResult := by
  unfold defineOperatorCreatePhase
  rcases hr : defineOperatorRestriction env s1.st.restrictionName with ⟨evs2, r⟩
  cases r with
  | error e => simp
  | ok roid =>
    rcases hj : defineOperatorJoin env s1.st.joinName with ⟨evs3, rj⟩
    cases rj <;> simp

theorem joinChecks_snd (env : Env) (jn : List String) (joid : Oid)
    (evs evs2 : List Event) :
    (joinRettypeAndAclChecks env jn joid evs).2 =
      (joinRettypeAndAclChecks env jn joid evs2).2 := by
  unfold joinRettypeAndAclChecks
  split_ifs <;> rfl

theorem join_snd_of_resolve (env : Env) (jn : List String) (joid : Oid)
    (hjn : jn ≠ []) (hres : joinResolve env jn = some joid) :
    (defineOperatorJoin env jn).2 = (joinRettypeAndAclChecks env jn joid []).2 := by
  unfold joinResolve at hres
  unfold defineOperatorJoin
  rw [if_neg hjn]
  cases h5 : env.lookupFuncName jn 5 joinArgTypes5 with
  | some o =>
    simp only [h5, Option.some.injEq] at hres
    subst hres
    exact joinChecks_snd env jn o _ []
  | none =>
    simp only [h5] at hres
    cases h4 : env.lookupFuncName jn 4 joinArgTypes4 with
    | some o =>
      simp only [h4, Option.some.injEq] at hres
      subst hres
      exact joinChecks_snd env jn o _ []
    | none =>
      simp only [h4, h5] at hres
      exact absurd hres (by simp)

theorem createPhase_no_create_on_error (env : Env) (s1 : Stage1Out) (e : PgError)
    (h : (defineOperatorCreatePhase env s1).2 = .error e) :
    ∀ ev ∈ (defineOperatorCreatePhase env s1).1, ev.isOperatorCreate = false := by
  unfold defineOperatorCreatePhase at h ⊢
  rcases hr : defineOperatorRestriction env s1.st.restrictionName with ⟨evs2, r⟩
  rw [hr] at h
  cases r with
  | error e2 =>
    intro ev hev
    exact lookup_not_create ev (restriction_events env _ ev (by rw [hr]; exact hev))
  | ok roid =>
    rcases hj : defineOperatorJoin env s1.st.joinName with ⟨evs3, rj⟩
    rw [hj] at h
    cases rj with
    | error e3 =>
      intro ev hev
      simp only [List.mem_append] at hev
      rcases hev with hev | hev
      · exact lookup_not_create ev (restriction_events env _ ev (by rw [hr]; exact hev))
      · exact lookup_not_create ev (join_events env _ ev (by rw [hj]; exact hev))
    | ok joid => simp at h

theorem DefineOperator_fst_of_stage1_error (env : Env) (ps : List DefElem) (e : PgError)
    (h : (defineOperatorStage1 env ps).2 = .error e) :
    (DefineOperator env ps).1 = (defineOperatorStage1 env ps).1 := by
  unfold DefineOperator
  rcases hs : defineOperatorStage1 env ps with ⟨evs, r⟩
  rw [hs] at h
  cases r with
  | error e2 => simp
  | ok s1 => simp at h

theorem stage1_fst_of_pp_error (env : Env) (ps : List DefElem) (e : PgError)
    (hacl : env.nsAclCreate = AclResult.ok)
    (h : (processParams initOpDefState ps).2 = .error e) :
    (defineOperatorStage1 env ps).1 = (processParams initOpDefState ps).1 := by
  unfold defineOperatorStage1
  rw [if_neg (by simp [hacl])]
  rcases hpp : processParams initOpDefState ps with ⟨evs, r⟩
  rw [hpp] at h
  cases r with
  | error e2 => simp
  | ok st => simp at h

theorem DefineOperator_fst_has_stage1 (env : Env) (ps : List DefElem) :
    ∃ rest, (DefineOperator env ps).1 = (defineOperatorStage1 env ps).1 ++ rest := by
  unfold DefineOperator
  rcases hs : defineOperatorStage1 env ps with ⟨evs, r⟩
  cases r with
  | error e => exact ⟨[], by simp⟩
  | ok s1 => exact ⟨(defineOperatorCreatePhase env s1).1, rfl⟩

theorem stage1_fst_has_pp (env : Env) (ps : List DefElem)
    (hacl : env.nsAclCreate = AclResult.ok) :
    ∃ rest, (defineOperatorStage1 env ps).1 =
      (processParams initOpDefState ps).1 ++ rest := by
  unfold defineOperatorStage1
  rw [if_neg (by simp [hacl])]
  rcases hpp : processParams initOpDefState ps with ⟨evs, r⟩
  cases r with
  | error e => exact ⟨[], by simp⟩
  | ok st => exact ⟨(stage1Post env st).1, rfl⟩

/-! ## Claim theorems -/

/-- Claim C1: each of the six scope flags of nodeFuncs.h occupies a distinct
single bit (they are the powers of two from 2^0 to 2^5), flags compose by
bitwise OR — in particular QTW_IGNORE_RC_SUBQUERIES is exactly
QTW_IGNORE_RT_SUBQUERIES OR QTW_IGNORE_CTE_SUBQUERIES — and for
query_tree_walker / query_tree_mutator no OR-combination of the six flags is
an error: every combination decodes losslessly to its six independent
Booleans and runs the engine with exactly those options. -/
theorem qtw_flags_compose_by_or :
    ([QTW_IGNORE_RT_SUBQUERIES, QTW_IGNORE_CTE_SUBQUERIES,
      QTW_IGNORE_JOINALIASES, QTW_IGNORE_RANGE_TABLE, QTW_EXAMINE_RTES,
      QTW_DONT_COPY_QUERY] = [2 ^ 0, 2 ^ 1, 2 ^ 2, 2 ^ 3, 2 ^ 4, 2 ^ 5]) ∧
    QTW_IGNORE_RC_SUBQUERIES =
      QTW_IGNORE_RT_SUBQUERIES ||| QTW_IGNORE_CTE_SUBQUERIES ∧
    (∀ b1 b2 b3 b4 b5 b6 : Bool,
      decodeQTWFlags (mkQTWCombo b1 b2 b3 b4 b5 b6) =
        QueryWalkerFlags.mk b1 b2 b3 b4 b5 b6) ∧
    (∀ (b1 b2 b3 b4 b5 b6 : Bool) (w : WalkNode → Bool) (q : Query),
      query_tree_walker w (mkQTWCombo b1 b2 b3 b4 b5 b6) q =
        query_tree_walker_opts w (QueryWalkerFlags.mk b1 b2 b3 b4 b5 b6) q) ∧
    (∀ (b1 b2 b3 b4 b5 b6 : Bool) (m : Expr → Option Expr) (q : Query),
      query_tree_mutator m (mkQTWCombo b1 b2 b3 b4 b5 b6) q =
        query_tree_mutator_opts m (QueryWalkerFlags.mk b1 b2 b3 b4 b5 b6) q) := by
  refine ⟨by decide, by decide, decode_combo, ?_, ?_⟩
  · intro b1 b2 b3 b4 b5 b6 w q
    rw [query_tree_walker, decode_combo]
  · intro b1 b2 b3 b4 b5 b6 m q
    rw [query_tree_mutator, decode_combo]

/-- Claim C2: for every tree and every predicate callback, the default
dispatch of expression_tree_walker combines subwalks with short-circuiting
OR; when exactly one node of the tree satisfies the predicate, the walk
returns true and the sequence of visited nodes is exactly the prefix of the
traversal order up to and including the match — every node positioned after
the match in traversal order is never visited. -/
theorem expression_walker_short_circuit (w : Expr → Bool) (t : Expr)
    (h : ((preorder t).filter w).length = 1) :
    expression_tree_walker w t = true ∧
    (expression_tree_walker_visits w t).1 = true ∧
    (expression_tree_walker_visits w t).2 =
      (preorder t).take ((preorder t).findIdx w + 1) := by
  have hany : (preorder t).any w = true := by
    rcases List.length_eq_one.mp h with ⟨a, ha⟩
    have hmem : a ∈ (preorder t).filter w := by rw [ha]; simp
    rw [List.mem_filter] at hmem
    exact List.any_eq_true.mpr ⟨a, hmem.1, hmem.2⟩
  refine ⟨?_, ?_, ?_⟩
  · rw [walker_eq_any]; exact hany
  · rw [walker_visits_spec]; exact hany
  · rw [walker_visits_spec]
    exact takeThrough_eq_take w (preorder t) hany

theorem expression_walker_short_circuit_witness :
    expression_tree_walker wC2 tC2 = true ∧
    (expression_tree_walker_visits wC2 tC2).1 = true ∧
    (expression_tree_walker_visits wC2 tC2).2 =
      (preorder tC2).take ((preorder tC2).findIdx wC2 + 1) :=
  expression_walker_short_circuit wC2 tC2 (by decide)

/-- Claim C3: expression_tree_mutator applied with an identity-producing
callback — one that, on every node, either declines (default recursion) or
returns the node itself — produces a tree structurally equal to the
original, for every well-formed input tree. -/
theorem expression_mutator_identity_law (m : Expr → Option Expr)
    (hm : ∀ e, m e = none ∨ m e = some e) (t : Expr) :
    expression_tree_mutator m t = t :=
  mutator_id_aux m hm t

theorem expression_mutator_identity_law_witness :
    expression_tree_mutator identityMutator tC3 = tC3 :=
  expression_mutator_identity_law identityMutator (fun _ => Or.inl rfl) tC3

/-- Claim C4 counterexample: the claim quantifies over every mutator
callback, but a callback that returns an existing node aliases it into the
result.  Concretely, on the one-node tagged tree with tag 0 the callback
that returns that very node makes expression_tree_mutator_alloc output a
tree sharing tag 0 with the input, refuting freshness for all callbacks. -/
theorem mutator_freshness_counterexample :
    ¬ (∀ (m : TExpr → Option TExpr) (t : TExpr) (ctr : Nat),
        (∀ i ∈ tids t, i < ctr) →
        ∀ i ∈ tids (expression_tree_mutator_alloc m ctr t).1, i ∉ tids t) := by
  intro hclaim
  exact hclaim (fun _ => some (.constE 0 5)) (.constE 0 5) 1
    (by decide) 0 (by decide) (by decide)

/-- Claim C4, amended: with an identity-producing (declining) callback and an
allocation counter past every identity tag of the input, the tree returned
by expression_tree_mutator_alloc is structurally equal to the input and is a
fresh, independent structure — it shares no node identity with the input, so
the original is untouched and mutating the output cannot change the
input. -/
theorem expression_mutator_fresh_allocation (t : TExpr) (ctr : Nat)
    (h : ∀ i ∈ tids t, i < ctr) :
    terase (expression_tree_mutator_alloc (fun _ => none) ctr t).1 = terase t ∧
    ∀ i ∈ tids (expression_tree_mutator_alloc (fun _ => none) ctr t).1,
      i ∉ tids t := by
  obtain ⟨h1, _, h3⟩ := alloc_fresh ctr t
  refine ⟨h1, ?_⟩
  intro i hi hit
  have hlt := h i hit
  have hge := h3 i hi
  omega

theorem expression_mutator_fresh_allocation_witness :
    terase (expression_tree_mutator_alloc (fun _ => none) 2 tC4).1 = terase tC4 ∧
    ∀ i ∈ tids (expression_tree_mutator_alloc (fun _ => none) 2 tC4).1,
      i ∉ tids tC4 :=
  expression_mutator_fresh_allocation tC4 2 (by decide)

/-- Claim C5: whenever any error occurs in DefineOperator — missing
argument, failed or ambiguous overload lookup, estimator return-type
mismatch, or insufficient permission — the whole command aborts with a
user-facing failure and performs no partial catalog mutation: every check
runs before the single catalog-mutating OperatorCreate call, so on every
error path the event trace contains no OperatorCreate event. -/

theorem defineOperator_no_catalog_mutation_on_error (env : Env) (ps : List DefElem)
    (e : PgError) (h : (DefineOperator env ps).2 = .error e) :
    (DefineOperator env ps).1.filter Event.isOperatorCreate = [] := by
  rw [List.filter_eq_nil_iff]
  unfold DefineOperator at h ⊢
  rcases h1 : defineOperatorStage1 env ps with ⟨evs, r⟩
  rw [h1] at h
  cases r with
  | error e2 =>
    intro ev hev
    rcases stage1_events env ps ev (by rw [h1]; exact hev) with hw | hl
    · simp [warning_not_create ev hw]
    · simp [lookup_not_create ev hl]
  | ok s1 =>
    dsimp only at h ⊢
    intro ev hev
    simp only [List.mem_append] at hev
    rcases hev with hev | hev
    · rcases stage1_events env ps ev (by rw [h1]; exact hev) with hw | hl
      · simp [warning_not_create ev hw]
      · simp [lookup_not_create ev hl]
    · have := createPhase_no_create_on_error env s1 e h ev hev
      simp [this]

theorem defineOperator_no_catalog_mutation_on_error_witness :
    (DefineOperator envW []).1.filter Event.isOperatorCreate = [] :=
  defineOperator_no_catalog_mutation_on_error envW [] .procedureRequired (by decide)

/-- Claim C6: DefineOperator raises a user error when a required argument is
missing — with the namespace permission granted and the parameter loop
completing, if no implementing procedure was named the command fails with
the procedure-required user error, and if a procedure was named but neither
a left nor a right argument type was specified it fails with the
at-least-one-argument user error. -/

theorem defineOperator_required_args (env : Env) (ps : List DefElem) (st : OpDefState)
    (hacl : env.nsAclCreate = AclResult.ok)
    (hp : (processParams initOpDefState ps).2 = .ok st) :
    (st.functionName = [] →
      (DefineOperator env ps).2 = .error .procedureRequired) ∧
    (st.functionName ≠ [] → st.typeName1 = none → st.typeName2 = none →
      (DefineOperator env ps).2 = .error .atLeastOneArgRequired) := by
  constructor
  · intro hfn
    rw [DefineOperator_snd, stage1_snd, if_neg (by simp [hacl]), hp]
    have hpost : stage1Post env st = ([], .error .procedureRequired) := by
      unfold stage1Post
      rw [if_pos hfn]
    simp [hpost]
  · intro hfn h1 h2
    rw [DefineOperator_snd, stage1_snd, if_neg (by simp [hacl]), hp]
    have hpost : stage1Post env st = ([], .error .atLeastOneArgRequired) := by
      unfold stage1Post
      rw [if_neg hfn]
      dsimp only
      rw [if_pos (by simp [stTypeId1, stTypeId2, h1, h2, OidIsValid, InvalidOid])]
    simp [hpost]

theorem defineOperator_required_args_witness :
    (DefineOperator envW []).2 = .error .procedureRequired :=
  (defineOperator_required_args envW [] initOpDefState rfl rfl).1 rfl

/-- Claim C7: if a restriction or join selectivity estimator is specified
and the resolved estimator function's return type is not float8,
DefineOperator raises a user error naming the estimator. -/

theorem defineOperator_estimator_rettype (env : Env) (ps : List DefElem) (s1 : Stage1Out)
    (h1 : (defineOperatorStage1 env ps).2 = .ok s1) :
    (∀ roid, s1.st.restrictionName ≠ [] →
      env.lookupFuncName s1.st.restrictionName 4 restrictionArgTypes = some roid →
      env.getFuncRettype roid ≠ FLOAT8OID →
      (DefineOperator env ps).2 =
        .error (.restrictionRettypeNotFloat8 s1.st.restrictionName)) ∧
    (∀ roid joid, (defineOperatorRestriction env s1.st.restrictionName).2 = .ok roid →
      s1.st.joinName ≠ [] →
      joinResolve env s1.st.joinName = some joid →
      env.getFuncRettype joid ≠ FLOAT8OID →
      (DefineOperator env ps).2 = .error (.joinRettypeNotFloat8 s1.st.joinName)) := by
  constructor
  · intro roid hrn hlook hret
    rw [DefineOperator_snd, h1]
    dsimp only
    rw [createPhase_snd]
    have hrest : (defineOperatorRestriction env s1.st.restrictionName).2 =
        .error (.restrictionRettypeNotFloat8 s1.st.restrictionName) := by
      unfold defineOperatorRestriction
      rw [if_neg hrn]
      dsimp only
      rw [hlook]
      dsimp only
      unfold restrictionRettypeAndAclChecks
      rw [if_pos hret]
    rw [hrest]
  · intro roid joid hrest hjn hres hret
    rw [DefineOperator_snd, h1]
    dsimp only
    rw [createPhase_snd, hrest]
    dsimp only
    rw [join_snd_of_resolve env s1.st.joinName joid hjn hres]
    unfold joinRettypeAndAclChecks
    rw [if_pos hret]

theorem defineOperator_estimator_rettype_witness :
    (DefineOperator envW psW7).2 = .error (.restrictionRettypeNotFloat8 ["r"]) :=
  (defineOperator_estimator_rettype envW psW7 s1W7 (by decide)).1 55
    (by decide) (by decide) (by decide)

/-- Claim C8: DefineOperator raises an authorization error whenever the
invoking user lacks a required permission — CREATE on the target namespace,
USAGE on each specified operand type, EXECUTE on the implementing function,
USAGE on the implementing function's return type, or EXECUTE on a specified
restriction or join estimator function. -/

theorem defineOperator_authorization (env : Env) (ps : List DefElem) (st : OpDefState)
    (s1 : Stage1Out) (hp : (processParams initOpDefState ps).2 = .ok st) :
    (env.nsAclCreate ≠ AclResult.ok →
      (DefineOperator env ps).2 = .error (.aclNamespace env.oprNamespace)) ∧
    (∀ t1, env.nsAclCreate = AclResult.ok → st.functionName ≠ [] →
      st.typeName1 = some t1 → OidIsValid (env.typenameTypeId t1) = true →
      env.typeAclUsage (env.typenameTypeId t1) ≠ AclResult.ok →
      (DefineOperator env ps).2 = .error (.aclType (env.typenameTypeId t1))) ∧
    (∀ t2, env.nsAclCreate = AclResult.ok → st.functionName ≠ [] →
      st.typeName2 = some t2 → OidIsValid (env.typenameTypeId t2) = true →
      (∀ t1, st.typeName1 = some t1 →
        env.typeAclUsage (env.typenameTypeId t1) = AclResult.ok) →
      env.typeAclUsage (env.typenameTypeId t2) ≠ AclResult.ok →
      (DefineOperator env ps).2 = .error (.aclType (env.typenameTypeId t2))) ∧
    (∀ foid, env.nsAclCreate = AclResult.ok → st.functionName ≠ [] →
      ¬(OidIsValid (stTypeId1 env st) = false ∧ OidIsValid (stTypeId2 env st) = false) →
      (st.typeName1.isSome = true →
        env.typeAclUsage (stTypeId1 env st) = AclResult.ok) →
      (st.typeName2.isSome = true →
        env.typeAclUsage (stTypeId2 env st) = AclResult.ok) →
      env.lookupFuncName st.functionName
        (operandArgTypes (stTypeId1 env st) (stTypeId2 env st)).length
        (operandArgTypes (stTypeId1 env st) (stTypeId2 env st)) = some foid →
      env.procAclExecute foid ≠ AclResult.ok →
      (DefineOperator env ps).2 = .error (.aclProc st.functionName)) ∧
    (∀ foid, env.nsAclCreate = AclResult.ok → st.functionName ≠ [] →
      ¬(OidIsValid (stTypeId1 env st) = false ∧ OidIsValid (stTypeId2 env st) = false) →
      (st.typeName1.isSome = true →
        env.typeAclUsage (stTypeId1 env st) = AclResult.ok) →
      (st.typeName2.isSome = true →
        env.typeAclUsage (stTypeId2 env st) = AclResult.ok) →
      env.lookupFuncName st.functionName
        (operandArgTypes (stTypeId1 env st) (stTypeId2 env st)).length
        (operandArgTypes (stTypeId1 env st) (stTypeId2 env st)) = some foid →
      env.procAclExecute foid = AclResult.ok →
      env.typeAclUsage (env.getFuncRettype foid) ≠ AclResult.ok →
      (DefineOperator env ps).2 = .error (.aclType (env.getFuncRettype foid))) ∧
    (∀ roid, (defineOperatorStage1 env ps).2 = .ok s1 →
      s1.st.restrictionName ≠ [] →
      env.lookupFuncName s1.st.restrictionName 4 restrictionArgTypes = some roid →
      env.getFuncRettype roid = FLOAT8OID →
      env.procAclExecute roid ≠ AclResult.ok →
      (DefineOperator env ps).2 = .error (.aclProc s1.st.restrictionName)) ∧
    (∀ roid joid, (defineOperatorStage1 env ps).2 = .ok s1 →
      (defineOperatorRestriction env s1.st.restrictionName).2 = .ok roid →
      s1.st.joinName ≠ [] →
      joinResolve env s1.st.joinName = some joid →
      env.getFuncRettype joid = FLOAT8OID →
      env.procAclExecute joid ≠ AclResult.ok →
      (DefineOperator env ps).2 = .error (.aclProc s1.st.joinName)) := by
  refine ⟨?_, ?_, ?_, ?_, ?_, ?_, ?_⟩
  · intro hacl
    rw [DefineOperator_snd, stage1_snd, if_pos hacl]
  · intro t1 hacl hfn ht1 hv1 hne
    rw [DefineOperator_snd, stage1_snd, if_neg (by simp [hacl]), hp]
    have hst1 : stTypeId1 env st = env.typenameTypeId t1 := by simp [stTypeId1, ht1]
    have hpost : (stage1Post env st).2 = .error (.aclType (env.typenameTypeId t1)) := by
      unfold stage1Post
      rw [if_neg hfn]
      dsimp only
      rw [if_neg (by rw [hst1]; simp [hv1])]
      rw [if_pos ⟨by simp [ht1], by rw [hst1]; exact hne⟩]
      rw [hst1]
    simp [hpost]
  · intro t2 hacl hfn ht2 hv2 h1ok hne
    rw [DefineOperator_snd, stage1_snd, if_neg (by simp [hacl]), hp]
    have hst2 : stTypeId2 env st = env.typenameTypeId t2 := by simp [stTypeId2, ht2]
    have hc2 : ¬(st.typeName1.isSome = true ∧
        env.typeAclUsage (stTypeId1 env st) ≠ AclResult.ok) := by
      rintro ⟨hs, hneq⟩
      rcases hx : st.typeName1 with _ | t1
      · rw [hx] at hs; simp at hs
      · exact hneq (by simp [stTypeId1, hx, h1ok t1 hx])
    have hpost : (stage1Post env st).2 = .error (.aclType (env.typenameTypeId t2)) := by
      unfold stage1Post
      rw [if_neg hfn]
      dsimp only
      rw [if_neg (by rw [hst2]; simp [hv2])]
      rw [if_neg hc2]
      rw [if_pos ⟨by simp [ht2], by rw [hst2]; exact hne⟩]
      rw [hst2]
    simp [hpost]
  · intro foid hacl hfn hvalid h1ok h2ok hlook hpa
    rw [DefineOperator_snd, stage1_snd, if_neg (by simp [hacl]), hp]
    have hc2 : ¬(st.typeName1.isSome = true ∧
        env.typeAclUsage (stTypeId1 env st) ≠ AclResult.ok) := by
      rintro ⟨hs, hneq⟩; exact hneq (h1ok hs)
    have hc3 : ¬(st.typeName2.isSome = true ∧
        env.typeAclUsage (stTypeId2 env st) ≠ AclResult.ok) := by
      rintro ⟨hs, hneq⟩; exact hneq (h2ok hs)
    have hpost : (stage1Post env st).2 = .error (.aclProc st.functionName) := by
      unfold stage1Post
      rw [if_neg hfn]
      dsimp only
      rw [if_neg hvalid, if_neg hc2, if_neg hc3, hlook]
      dsimp only
      unfold functionChecks
      rw [if_pos hpa]
    simp [hpost]
  · intro foid hacl hfn hvalid h1ok h2ok hlook hpaok hne
    rw [DefineOperator_snd, stage1_snd, if_neg (by simp [hacl]), hp]
    have hc2 : ¬(st.typeName1.isSome = true ∧
        env.typeAclUsage (stTypeId1 env st) ≠ AclResult.ok) := by
      rintro ⟨hs, hneq⟩; exact hneq (h1ok hs)
    have hc3 : ¬(st.typeName2.isSome = true ∧
        env.typeAclUsage (stTypeId2 env st) ≠ AclResult.ok) := by
      rintro ⟨hs, hneq⟩; exact hneq (h2ok hs)
    have hpost : (stage1Post env st).2 =
        .error (.aclType (env.getFuncRettype foid)) := by
      unfold stage1Post
      rw [if_neg hfn]
      dsimp only
      rw [if_neg hvalid, if_neg hc2, if_neg hc3, hlook]
      dsimp only
      unfold functionChecks
      rw [if_neg (by simp [hpaok]), if_pos hne]
    simp [hpost]
  · intro roid h1 hrn hlook hfret hpa
    rw [DefineOperator_snd, h1]
    dsimp only
    rw [createPhase_snd]
    have hrest : (defineOperatorRestriction env s1.st.restrictionName).2 =
        .error (.aclProc s1.st.restrictionName) := by
      unfold defineOperatorRestriction
      rw [if_neg hrn]
      dsimp only
      rw [hlook]
      dsimp only
      unfold restrictionRettypeAndAclChecks
      rw [if_neg (by simp [hfret]), if_pos hpa]
    rw [hrest]
  · intro roid joid h1 hrest hjn hres hfret hpa
    rw [DefineOperator_snd, h1]
    dsimp only
    rw [createPhase_snd, hrest]
    dsimp only
    rw [join_snd_of_resolve env s1.st.joinName joid hjn hres]
    unfold joinRettypeAndAclChecks
    rw [if_neg (by simp [hfret]), if_pos hpa]

theorem defineOperator_authorization_witness :
    (DefineOperator envW8 []).2 = .error (.aclNamespace 11) :=
  (defineOperator_authorization envW8 [] initOpDefState ⟨initOpDefState, 0, 0, 0, 0⟩
    rfl).1 (by decide)

/-- Claim C9: if a leftarg or rightarg type name given to DefineOperator is
declared SETOF, the command fails with the SETOF-not-allowed user error
inside the parameter loop, before the implementing function is resolved: the
event trace contains no LookupFuncName call at all. -/

theorem defineOperator_setof_rejected_before_lookup (env : Env) (pre : List DefElem)
    (d : DefElem) (post : List DefElem) (st : OpDefState)
    (hacl : env.nsAclCreate = AclResult.ok)
    (hpre : (processParams initOpDefState pre).2 = .ok st)
    (hd : strcaseeq d.defname "leftarg" = true ∨ strcaseeq d.defname "rightarg" = true)
    (hsetof : d.typeNameArg.setof = true) :
    (DefineOperator env (pre ++ d :: post)).2 = .error .setofNotAllowed ∧
    (DefineOperator env (pre ++ d :: post)).1.filter Event.isLookupFunc = [] := by
  have hpd : processParam st d = .error .setofNotAllowed := by
    rcases hd with hd | hd
    · unfold processParam
      rw [if_pos hd, if_pos hsetof]
    · have hfold : d.defname.data.map charLower = "rightarg".data.map charLower := by
        have := hd
        unfold strcaseeq at this
        exact beq_iff_eq.mp this
      have hleft : strcaseeq d.defname "leftarg" = false := by
        unfold strcaseeq
        rw [hfold]
        decide
      unfold processParam
      rw [if_neg (by simp [hleft]), if_pos hd, if_pos hsetof]
  obtain ⟨ha1, ha2⟩ := processParams_append_ok initOpDefState st pre (d :: post) hpre
  have hcons2 : (processParams st (d :: post)).2 = .error .setofNotAllowed := by
    simp [processParams, hpd]
  have hcons1 : (processParams st (d :: post)).1 = paramWarnings d := by
    simp [processParams, hpd]
  have hpp2 : (processParams initOpDefState (pre ++ d :: post)).2 =
      .error .setofNotAllowed := by rw [ha2, hcons2]
  constructor
  · rw [DefineOperator_snd, stage1_snd, if_neg (by simp [hacl]), hpp2]
  · rw [DefineOperator_fst_of_stage1_error env _ _ (by
      rw [stage1_snd, if_neg (by simp [hacl]), hpp2])]
    rw [stage1_fst_of_pp_error env _ _ hacl hpp2]
    rw [List.filter_eq_nil_iff]
    intro ev hev
    have hw := processParams_events_warning initOpDefState (pre ++ d :: post) ev hev
    simp [warning_not_lookup ev hw]

theorem defineOperator_setof_rejected_before_lookup_witness :
    (DefineOperator envW [dW9]).2 = .error .setofNotAllowed ∧
    (DefineOperator envW [dW9]).1.filter Event.isLookupFunc = [] :=
  defineOperator_setof_rejected_before_lookup envW [] dW9 [] initOpDefState
    rfl rfl (Or.inl (by decide)) rfl

/-- Claim C10: a parameter whose attribute name is not one of the thirteen
recognized operator attributes causes DefineOperator to emit a warning only:
the warning event is recorded, the attribute is otherwise ignored, and the
command's result is the same as if the parameter had not been given. -/

theorem defineOperator_unrecognized_attr_warning (env : Env) (pre : List DefElem)
    (d : DefElem) (post : List DefElem) (st : OpDefState)
    (hrec : recognizedAttr d.defname = false)
    (hacl : env.nsAclCreate = AclResult.ok)
    (hpre : (processParams initOpDefState pre).2 = .ok st) :
    Event.warningUnrecognizedAttr d.defname ∈ (DefineOperator env (pre ++ d :: post)).1 ∧
    (DefineOperator env (pre ++ d :: post)).2 = (DefineOperator env (pre ++ post)).2 := by
  have hrec' := hrec
  unfold recognizedAttr at hrec'
  simp only [Bool.or_eq_false_iff] at hrec'
  obtain ⟨⟨⟨⟨⟨⟨⟨⟨⟨⟨⟨⟨c1, c2⟩, c3⟩, c4⟩, c5⟩, c6⟩, c7⟩, c8⟩, c9⟩, c10⟩, c11⟩, c12⟩, c13⟩ :=
    hrec'
  have hpd : processParam st d = .ok st := by
    unfold processParam
    simp [c1, c2, c3, c4, c5, c6, c7, c8, c9, c10, c11, c12, c13]
  have hwarn : paramWarnings d = [.warningUnrecognizedAttr d.defname] := by
    simp [paramWarnings, hrec]
  obtain ⟨hl1, hl2⟩ := processParams_append_ok initOpDefState st pre (d :: post) hpre
  obtain ⟨hr1, hr2⟩ := processParams_append_ok initOpDefState st pre post hpre
  have hcons1 : (processParams st (d :: post)).1 =
      Event.warningUnrecognizedAttr d.defname :: (processParams st post).1 := by
    simp [processParams, hpd, hwarn]
  have hcons2 : (processParams st (d :: post)).2 = (processParams st post).2 := by
    simp [processParams, hpd]
  constructor
  · obtain ⟨rest1, hDf⟩ := DefineOperator_fst_has_stage1 env (pre ++ d :: post)
    obtain ⟨rest2, hSf⟩ := stage1_fst_has_pp env (pre ++ d :: post) hacl
    rw [hDf, hSf, hl1, hcons1]
    simp
  · rw [DefineOperator_snd, DefineOperator_snd, stage1_snd, stage1_snd,
      if_neg (by simp [hacl]), if_neg (by simp [hacl]), hl2, hcons2, hr2]

theorem defineOperator_unrecognized_attr_warning_witness :
    Event.warningUnrecognizedAttr "fancy" ∈ (DefineOperator envW [dW10]).1 ∧
    (DefineOperator envW [dW10]).2 = (DefineOperator envW []).2 :=
  defineOperator_unrecognized_attr_warning envW [] dW10 [] initOpDefState
    (by decide) rfl rfl
